import Mathlib

/-!
Verification of the DuaSlidesMaker pipeline (src/bot.py).

The development shallowly embeds the algorithmic core of the program:

* `scrape_dua`  — extraction of aligned bilingual line pairs and a title
  from parsed markup (bot.py lines 30-59);
* `paginate`    — the slicing loop `for i in range(0, len(dua_lines), k)`
  with `dua_lines[i:i+k]` used to group lines onto slides
  (bot.py lines 142, 167; the single-line builder iterates line by line,
  which is the `k = 1` instance);
* `create_pptx_single_line` / `create_pptx_three_lines` — the slide
  builders (bot.py lines 61-131 and 133-214), modelled as pure
  constructions of slide descriptors: canvas dimensions and box geometry
  in hundredths of an inch, font sizes in points;
* the artifact file names produced in `receive_image`
  (bot.py lines 306-316).

Strings: `bs4.get_text(strip=True)` on the single-text elements scraped
here, and Python `str.strip()` in the `DuaLine` constructor, both remove
leading and trailing whitespace; both are modelled by `pyStrip`.
-/

namespace DuaSlides

/-! ## Whitespace stripping -/

/-- Remove leading and trailing whitespace characters from a character
list: drop the whitespace prefix, then drop the whitespace prefix of the
reversal, and reverse back. -/
def stripChars (l : List Char) : List Char :=
  ((l.dropWhile Char.isWhitespace).reverse.dropWhile Char.isWhitespace).reverse

/-- Model of Python `str.strip()` and of `get_text(strip=True)` on a
single-text element: remove leading and trailing whitespace. -/
def pyStrip (s : String) : String :=
  String.mk (stripChars s.data)

/-! ## Data model of the extraction stage -/

/-- A parsed markup element: its tag, its class token, and its text
content. `scrape_dua` only consults these three attributes. -/
structure Element where
  tag : String
  className : String
  text : String
deriving DecidableEq

/-- Parsed markup: the elements of the document in document order. -/
structure Markup where
  elements : List Element
deriving DecidableEq

/-- `element.get_text(strip=True)`: the trimmed text content. -/
def get_text (e : Element) : String :=
  pyStrip e.text

/-- `soup.find_all(tag, class_=cls)`: all elements with the given tag and
class token, in document order. -/
def find_all (m : Markup) (tag cls : String) : List Element :=
  m.elements.filter (fun e => e.tag == tag && e.className == cls)

/-- `soup.find(tag)`: the first element with the given tag, if any. -/
def find_first (m : Markup) (tag : String) : Option Element :=
  m.elements.find? (fun e => e.tag == tag)

/-- One aligned bilingual line (class `DuaLine`, bot.py lines 25-28). -/
structure DuaLine where
  arabic : String
  translation : String
deriving DecidableEq

/-- The `DuaLine` constructor: stores both texts stripped
(`self.arabic = arabic.strip()`, `self.translation = translation.strip()`). -/
def DuaLine.make (arabic translation : String) : DuaLine :=
  ⟨pyStrip arabic, pyStrip translation⟩

/-- The pairing loop of `scrape_dua` (bot.py lines 44-49): for each index
`i` below the length of the shorter list, take the trimmed texts of the
i-th primary and i-th translation element; keep the pair when both are
non-empty, otherwise drop this index. Walking the two lists in step is
the same as iterating `i` over `range(min(p, t))`. -/
def matchPairs : List Element → List Element → List DuaLine
  | a :: as, t :: ts =>
    let arabic_text := get_text a
    let translation_text := get_text t
    if arabic_text ≠ "" ∧ translation_text ≠ "" then
      DuaLine.make arabic_text translation_text :: matchPairs as ts
    else
      matchPairs as ts
  | _, _ => []

/-- `scrape_dua` (bot.py lines 30-59), on already-parsed markup: pair the
`div.Ara` texts with the `div.Tra` texts positionally, and take the title
from the first `ptitle` element when present, else the placeholder
`"Dua"`. -/
def scrape_dua (m : Markup) : List DuaLine × String :=
  let arabic_divs := find_all m "div" "Ara"
  let translation_divs := find_all m "div" "Tra"
  let dua_lines := matchPairs arabic_divs translation_divs
  let title :=
    match find_first m "ptitle" with
    | some e => get_text e
    | none => "Dua"
  (dua_lines, title)

/-! ## Pagination -/

/-- The slicing loop `for i in range(0, len(L), k): group = L[i:i+k]`
(bot.py lines 142 and 167, with `k = 3`): split the list into consecutive
runs of `k` elements, the last run possibly shorter.  On a non-empty list
the first group is `L[0:k]` and the rest is the same loop on `L[k:]`
(for `k ≥ 1`, dropping `k` from `x :: xs` is dropping `k - 1` from `xs`).
The single-line builder iterates `for line in dua_lines`, the `k = 1`
instance. -/
def paginate {α : Type} (k : Nat) : List α → List (List α)
  | [] => []
  | x :: xs => ((x :: xs).take k) :: paginate k (xs.drop (k - 1))
termination_by l => l.length
decreasing_by
  simp [List.length_drop]
  omega

/-! ## Slide model and the two builders -/

/-- Paragraph alignment, `PP_ALIGN.LEFT` / `PP_ALIGN.RIGHT`. -/
inductive PPAlign where
  | left
  | right
deriving DecidableEq

/-- One paragraph of a slide text box: its text, alignment, font size in
points, bold flag, RGB font color, font name, and optional
`space_after` in points. -/
structure Paragraph where
  text : String
  alignment : PPAlign
  size : Nat
  bold : Bool
  color : Nat × Nat × Nat
  fontName : String
  spaceAfter : Option Nat
deriving DecidableEq

/-- A text box: geometry in hundredths of an inch, then its paragraphs. -/
structure TextBox where
  left : Nat
  top : Nat
  width : Nat
  height : Nat
  paragraphs : List Paragraph
deriving DecidableEq

/-- One slide: the background handle passed through from the caller (the
picture is added exactly when the caller supplied one), the constant
black semi-transparent overlay rectangle, and the text boxes in the order
they are added.  `β` is the opaque type of the background handle; the
builders never inspect it. -/
structure Slide (β : Type) where
  background : Option β
  overlayColor : Nat × Nat × Nat
  textBoxes : List TextBox

/-- A presentation: canvas size in hundredths of an inch and the slides
in order. -/
structure Presentation (β : Type) where
  slideWidth : Nat
  slideHeight : Nat
  slides : List (Slide β)

/-- `create_pptx_single_line` (bot.py lines 61-131): one slide per line;
Arabic in a right-side box, one right-aligned bold 28pt paragraph;
English in a left-side box, one left-aligned 24pt paragraph; both white
Arial on a 10 x 7.5 inch canvas. The `title` argument is not used. -/
def create_pptx_single_line {β : Type} (dua_lines : List DuaLine) (title : String)
    (bg : Option β) : Presentation β :=
  { slideWidth := 1000
    slideHeight := 750
    slides := dua_lines.map (fun line =>
      { background := bg
        overlayColor := (0, 0, 0)
        textBoxes :=
          [{ left := 520, top := 250, width := 450, height := 250
             paragraphs :=
               [{ text := line.arabic, alignment := PPAlign.right, size := 28, bold := true
                  color := (255, 255, 255), fontName := "Arial", spaceAfter := none }] },
           { left := 30, top := 250, width := 450, height := 250
             paragraphs :=
               [{ text := line.translation, alignment := PPAlign.left, size := 24, bold := false
                  color := (255, 255, 255), fontName := "Arial", spaceAfter := none }] }] }) }

/-- `create_pptx_three_lines` (bot.py lines 133-214): one slide per group
of up to three lines; per group, an Arabic box holding one right-aligned
bold 22pt paragraph per line and an English box holding one left-aligned
18pt paragraph per line, each with 20pt spacing after; both white Arial
on a 10 x 7.5 inch canvas. The `title` argument is not used. -/
def create_pptx_three_lines {β : Type} (dua_lines : List DuaLine) (title : String)
    (bg : Option β) : Presentation β :=
  { slideWidth := 1000
    slideHeight := 750
    slides := (paginate 3 dua_lines).map (fun current_lines =>
      { background := bg
        overlayColor := (0, 0, 0)
        textBoxes :=
          [{ left := 520, top := 100, width := 450, height := 550
             paragraphs := current_lines.map (fun line =>
               { text := line.arabic, alignment := PPAlign.right, size := 22, bold := true
                 color := (255, 255, 255), fontName := "Arial", spaceAfter := some 20 }) },
           { left := 30, top := 100, width := 450, height := 550
             paragraphs := current_lines.map (fun line =>
               { text := line.translation, alignment := PPAlign.left, size := 18, bold := false
                 color := (255, 255, 255), fontName := "Arial", spaceAfter := some 20 }) }] }) }

/-! ## Artifact naming -/

/-- Python `title.replace(' ', '_')`: with a one-character pattern this
maps each character, turning every space into an underscore. -/
def replace_spaces (s : String) : String :=
  String.mk (s.data.map (fun c => if c = ' ' then '_' else c))

/-- File name of the single-line artifact sent in `receive_image`
(bot.py line 308). -/
def single_line_filename (title : String) : String :=
  replace_spaces title ++ "_single_line.pptx"

/-- File name of the three-lines artifact sent in `receive_image`
(bot.py line 314). -/
def three_lines_filename (title : String) : String :=
  replace_spaces title ++ "_three_lines.pptx"

/-! ## Stripping lemmas -/

theorem dropWhile_head?_false {p : Char → Bool} :
    ∀ (l : List Char) (c : Char), (l.dropWhile p).head? = some c → p c = false := by
  intro l
  induction l with
  | nil => intro c h; simp [List.dropWhile] at h
  | cons a l ih =>
    intro c h
    cases hp : p a with
    | true =>
      rw [List.dropWhile_cons_of_pos hp] at h
      exact ih c h
    | false =>
      rw [List.dropWhile_cons_of_neg (by simp [hp])] at h
      simp only [List.head?_cons, Option.some.injEq] at h
      subst h
      exact hp

theorem dropWhile_eq_self_of_head {p : Char → Bool} (l : List Char)
    (h : ∀ c, l.head? = some c → p c = false) : l.dropWhile p = l := by
  cases l with
  | nil => rfl
  | cons a l => exact List.dropWhile_cons_of_neg (by simp [h a rfl])

theorem dropWhile_idem {p : Char → Bool} (l : List Char) :
    (l.dropWhile p).dropWhile p = l.dropWhile p :=
  dropWhile_eq_self_of_head _ (dropWhile_head?_false l)

theorem getLast?_dropWhile_some {p : Char → Bool} :
    ∀ (l : List Char) (c : Char), (l.dropWhile p).getLast? = some c → l.getLast? = some c := by
  intro l
  induction l with
  | nil => intro c h; simp [List.dropWhile] at h
  | cons a l ih =>
    intro c h
    cases hp : p a with
    | true =>
      rw [List.dropWhile_cons_of_pos hp] at h
      have hl := ih c h
      cases l with
      | nil => simp at hl
      | cons b l2 =>
        rw [List.getLast?_cons_cons]
        exact hl
    | false =>
      rw [List.dropWhile_cons_of_neg (by simp [hp])] at h
      exact h

theorem stripChars_idem (l : List Char) : stripChars (stripChars l) = stripChars l := by
  unfold stripChars
  have h1 :
      (((l.dropWhile Char.isWhitespace).reverse.dropWhile Char.isWhitespace).reverse).dropWhile
          Char.isWhitespace =
        ((l.dropWhile Char.isWhitespace).reverse.dropWhile Char.isWhitespace).reverse := by
    apply dropWhile_eq_self_of_head
    intro c hc
    rw [List.head?_reverse] at hc
    have h2 := getLast?_dropWhile_some _ c hc
    rw [List.getLast?_reverse] at h2
    exact dropWhile_head?_false l c h2
  rw [h1, List.reverse_reverse, dropWhile_idem]

theorem pyStrip_idem (s : String) : pyStrip (pyStrip s) = pyStrip s := by
  unfold pyStrip
  exact congrArg String.mk (stripChars_idem s.data)

/-! ## Pagination lemmas -/

theorem paginate_nil {α : Type} (k : Nat) : paginate k ([] : List α) = [] := by
  simp [paginate]

theorem paginate_cons {α : Type} (k : Nat) (x : α) (xs : List α) :
    paginate k (x :: xs) = ((x :: xs).take k) :: paginate k (xs.drop (k - 1)) := by
  rw [paginate]

theorem paginate_join_aux {α : Type} (k : Nat) (hk : 1 ≤ k) :
    ∀ (n : Nat) (L : List α), L.length ≤ n → (paginate k L).flatten = L := by
  intro n
  induction n with
  | zero =>
    intro L h
    have hL : L = [] := List.eq_nil_of_length_eq_zero (Nat.le_zero.mp h)
    subst hL
    simp [paginate_nil]
  | succ n ih =>
    intro L h
    cases L with
    | nil => simp [paginate_nil]
    | cons x xs =>
      rw [paginate_cons, List.flatten_cons]
      rw [ih (xs.drop (k - 1)) (by simp only [List.length_drop]; simp at h; omega)]
      obtain ⟨k1, rfl⟩ : ∃ k1, k = k1 + 1 := ⟨k - 1, by omega⟩
      simp [List.take_succ_cons, List.take_append_drop]

theorem paginate_join {α : Type} (k : Nat) (hk : 1 ≤ k) (L : List α) :
    (paginate k L).flatten = L :=
  paginate_join_aux k hk L.length L (Nat.le_refl _)

theorem paginate_group_len_aux {α : Type} (k : Nat) (hk : 1 ≤ k) :
    ∀ (n : Nat) (L : List α), L.length ≤ n →
      ∀ g ∈ paginate k L, 1 ≤ g.length ∧ g.length ≤ k := by
  intro n
  induction n with
  | zero =>
    intro L h
    have hL : L = [] := List.eq_nil_of_length_eq_zero (Nat.le_zero.mp h)
    subst hL
    simp [paginate_nil]
  | succ n ih =>
    intro L h g hg
    cases L with
    | nil => simp [paginate_nil] at hg
    | cons x xs =>
      rw [paginate_cons] at hg
      cases hg with
      | head =>
        simp only [List.length_take, List.length_cons]
        omega
      | tail _ hgt =>
        exact ih (xs.drop (k - 1)) (by simp only [List.length_drop]; simp at h; omega) g hgt

theorem paginate_dropLast_aux {α : Type} (k : Nat) (hk : 1 ≤ k) :
    ∀ (n : Nat) (L : List α), L.length ≤ n →
      ∀ g ∈ (paginate k L).dropLast, g.length = k := by
  intro n
  induction n with
  | zero =>
    intro L h
    have hL : L = [] := List.eq_nil_of_length_eq_zero (Nat.le_zero.mp h)
    subst hL
    simp [paginate_nil]
  | succ n ih =>
    intro L h g hg
    cases L with
    | nil => simp [paginate_nil] at hg
    | cons x xs =>
      rw [paginate_cons] at hg
      cases hd : xs.drop (k - 1) with
      | nil =>
        rw [hd, paginate_nil] at hg
        simp at hg
      | cons y ys =>
        rw [hd, paginate_cons] at hg
        rw [List.dropLast_cons₂] at hg
        cases hg with
        | head =>
          have hlen : k - 1 < xs.length := by
            by_contra hc
            have : xs.drop (k - 1) = [] := List.drop_eq_nil_of_le (by omega)
            rw [hd] at this
            exact List.cons_ne_nil y ys this
          simp only [List.length_take, List.length_cons]
          omega
        | tail _ hgt =>
          have := ih (xs.drop (k - 1)) (by simp only [List.length_drop]; simp at h; omega) g
          rw [hd, paginate_cons] at this
          exact this hgt

theorem paginate_singletons {α : Type} (L : List α) :
    paginate 1 L = L.map (fun x => [x]) := by
  induction L with
  | nil => simp [paginate_nil]
  | cons x xs ih => simp [paginate_cons, ih]

/-! ## Extraction lemmas -/

theorem DuaLine.make_of_stripped (a t : String) :
    DuaLine.make (pyStrip a) (pyStrip t) = ⟨pyStrip a, pyStrip t⟩ := by
  unfold DuaLine.make
  rw [pyStrip_idem, pyStrip_idem]

theorem matchPairs_eq_zip_filter :
    ∀ (as ts : List Element),
      matchPairs as ts =
        ((as.zip ts).filter (fun p => get_text p.1 != "" && get_text p.2 != "")).map
          (fun p => ⟨get_text p.1, get_text p.2⟩) := by
  intro as
  induction as with
  | nil => intro ts; cases ts <;> simp [matchPairs]
  | cons a as ih =>
    intro ts
    cases ts with
    | nil => simp [matchPairs]
    | cons t ts =>
      by_cases h1 : get_text a = ""
      · simp [matchPairs, h1, ih ts]
      · by_cases h2 : get_text t = ""
        · simp [matchPairs, h1, h2, ih ts]
        · have h1b : ¬ pyStrip a.text = "" := by simpa [get_text] using h1
          have h2b : ¬ pyStrip t.text = "" := by simpa [get_text] using h2
          simp [matchPairs, h1, h2, ih ts, DuaLine.make, get_text, pyStrip_idem, h1b, h2b]

theorem matchPairs_nonempty :
    ∀ (as ts : List Element), ∀ l ∈ matchPairs as ts,
      pyStrip l.arabic ≠ "" ∧ pyStrip l.translation ≠ "" := by
  intro as
  induction as with
  | nil => intro ts l hl; cases ts <;> simp [matchPairs] at hl
  | cons a as ih =>
    intro ts l hl
    cases ts with
    | nil => simp [matchPairs] at hl
    | cons t ts =>
      simp only [matchPairs] at hl
      by_cases h : get_text a ≠ "" ∧ get_text t ≠ ""
      · rw [if_pos h] at hl
        cases hl with
        | head =>
          refine ⟨?_, ?_⟩ <;>
            simp [DuaLine.make, get_text, pyStrip_idem] <;>
            simp [get_text] at h
          · exact h.1
          · exact h.2
        | tail _ hgt => exact ih ts l hgt
      · rw [if_neg h] at hl
        exact ih ts l hl

/-! ## String append associativity (for the naming claim) -/

theorem string_append_assoc (a b c : String) : a ++ b ++ c = a ++ (b ++ c) := by
  cases a with | mk la =>
  cases b with | mk lb =>
  cases c with | mk lc =>
  show String.mk (la ++ lb ++ lc) = String.mk (la ++ (lb ++ lc))
  rw [List.append_assoc]

/-! ## Claims -/

/-- C1: extraction yields at most `min(p, t)` bilingual lines from `p`
primary and `t` translation elements; the pairing walks both element
lists by their own original index (their zip), drops an index when either
trimmed text is empty without resynchronizing later pairs, and a
surviving pair carries exactly the trimmed texts of the two elements at
that original index. -/
theorem pairing_alignment (m : Markup) :
    ((scrape_dua m).1).length ≤
        min (find_all m "div" "Ara").length (find_all m "div" "Tra").length ∧
    (scrape_dua m).1 =
      (((find_all m "div" "Ara").zip (find_all m "div" "Tra")).filter
          (fun p => get_text p.1 != "" && get_text p.2 != "")).map
        (fun p => ⟨get_text p.1, get_text p.2⟩) := by
  have he : (scrape_dua m).1 = matchPairs (find_all m "div" "Ara") (find_all m "div" "Tra") := rfl
  constructor
  · rw [he, matchPairs_eq_zip_filter, List.length_map]
    have hf := List.length_filter_le
      (fun p : Element × Element => get_text p.1 != "" && get_text p.2 != "")
      ((find_all m "div" "Ara").zip (find_all m "div" "Tra"))
    rw [List.length_zip] at hf
    exact hf
  · rw [he]
    exact matchPairs_eq_zip_filter _ _

/-- C2: concatenating the lines of all slide groups produced by
pagination, in group order, reproduces the input list exactly, for every
group size of at least one. -/
theorem pagination_round_trip {α : Type} (k : Nat) (hk : 1 ≤ k) (L : List α) :
    (paginate k L).flatten = L :=
  paginate_join k hk L

theorem pagination_round_trip_witness :
    1 ≤ 3 ∧ (paginate 3 [(1 : Nat), 2, 3, 4]).flatten = [1, 2, 3, 4] :=
  ⟨by decide, pagination_round_trip 3 (by decide) [1, 2, 3, 4]⟩

/-- C3: every slide group from pagination has between 1 and `k` lines,
only the last group may be shorter than `k`, and the empty input gives an
empty group sequence. -/
theorem group_size_bound {α : Type} (k : Nat) (hk : 1 ≤ k) (L : List α) :
    (∀ g ∈ paginate k L, 1 ≤ g.length ∧ g.length ≤ k) ∧
    (∀ g ∈ (paginate k L).dropLast, g.length = k) ∧
    paginate k ([] : List α) = [] :=
  ⟨paginate_group_len_aux k hk L.length L (Nat.le_refl _),
   paginate_dropLast_aux k hk L.length L (Nat.le_refl _),
   paginate_nil k⟩

theorem group_size_bound_witness :
    1 ≤ 3 ∧
    ((∀ g ∈ paginate 3 [(1 : Nat), 2, 3, 4, 5], 1 ≤ g.length ∧ g.length ≤ 3) ∧
     (∀ g ∈ (paginate 3 [(1 : Nat), 2, 3, 4, 5]).dropLast, g.length = 3) ∧
     paginate 3 ([] : List Nat) = []) :=
  ⟨by decide, group_size_bound 3 (by decide) [1, 2, 3, 4, 5]⟩

/-- C4: every bilingual line extraction produces has non-empty primary
and non-empty secondary text after trimming, and the lines pagination
propagates into slide groups satisfy the same invariant. -/
theorem non_empty_invariant (m : Markup) (k : Nat) (hk : 1 ≤ k) :
    (∀ l ∈ (scrape_dua m).1, pyStrip l.arabic ≠ "" ∧ pyStrip l.translation ≠ "") ∧
    (∀ g ∈ paginate k (scrape_dua m).1, ∀ l ∈ g,
      pyStrip l.arabic ≠ "" ∧ pyStrip l.translation ≠ "") := by
  constructor
  · intro l hl
    exact matchPairs_nonempty _ _ l hl
  · intro g hg l hl
    have hmem : l ∈ (paginate k (scrape_dua m).1).flatten := List.mem_flatten.mpr ⟨g, hg, hl⟩
    rw [paginate_join k hk] at hmem
    exact matchPairs_nonempty _ _ l hmem

theorem non_empty_invariant_witness :
    1 ≤ 1 ∧
    (pyStrip (DuaLine.mk "a" "t").arabic ≠ "" ∧ pyStrip (DuaLine.mk "a" "t").translation ≠ "") :=
  ⟨by decide,
   (non_empty_invariant ⟨[⟨"div", "Ara", "a"⟩, ⟨"div", "Tra", "t"⟩]⟩ 1 (by decide)).1
     ⟨"a", "t"⟩ (by decide)⟩

/-- C5: each bilingual line on a slide yields exactly one primary
paragraph — right-aligned (text ends at the slide edge) and bold — and
exactly one secondary paragraph — left-aligned — in the matching position
of the two text boxes; the font sizes across the two styles are
28pt/24pt (single, tiers 1 and 2) and 22pt/18pt (grouped, tiers 3 and 4),
a strictly decreasing chain. -/
theorem layout_pairing {β : Type} (L : List DuaLine) (t : String) (bg : Option β) :
    (∀ (i : Nat) (l : DuaLine), L[i]? = some l →
      ((create_pptx_single_line L t bg).slides[i]?).map
          (fun s => s.textBoxes.map TextBox.paragraphs) =
        some [[⟨l.arabic, PPAlign.right, 28, true, (255, 255, 255), "Arial", none⟩],
              [⟨l.translation, PPAlign.left, 24, false, (255, 255, 255), "Arial", none⟩]]) ∧
    (∀ (j : Nat) (g : List DuaLine), (paginate 3 L)[j]? = some g →
      ((create_pptx_three_lines L t bg).slides[j]?).map
          (fun s => s.textBoxes.map TextBox.paragraphs) =
        some [g.map (fun l =>
                ⟨l.arabic, PPAlign.right, 22, true, (255, 255, 255), "Arial", some 20⟩),
              g.map (fun l =>
                ⟨l.translation, PPAlign.left, 18, false, (255, 255, 255), "Arial", some 20⟩)]) ∧
    (28 > 24 ∧ 24 > 22 ∧ 22 > 18) := by
  refine ⟨?_, ?_, by omega⟩
  · intro i l hl
    simp [create_pptx_single_line, List.getElem?_map, hl]
  · intro j g hg
    simp [create_pptx_three_lines, List.getElem?_map, hg]

theorem layout_pairing_witness :
    ((create_pptx_single_line [⟨"aa", "tt"⟩] "T" (some 5)).slides[0]?).map
        (fun s => s.textBoxes.map TextBox.paragraphs) =
      some [[⟨"aa", PPAlign.right, 28, true, (255, 255, 255), "Arial", none⟩],
            [⟨"tt", PPAlign.left, 24, false, (255, 255, 255), "Arial", none⟩]] :=
  (layout_pairing [⟨"aa", "tt"⟩] "T" (some 5)).1 0 ⟨"aa", "tt"⟩ (by decide)

/-- C6: both builders copy the caller's background handle into every
slide unchanged and never inspect it (it is of an arbitrary opaque type
`β`); the text boxes of every slide are identical whatever the handle
is. -/
theorem background_passthrough {β : Type} (L : List DuaLine) (t : String) (bg bg2 : Option β) :
    ((create_pptx_single_line L t bg).slides.map Slide.background =
        List.replicate L.length bg) ∧
    ((create_pptx_three_lines L t bg).slides.map Slide.background =
        List.replicate (paginate 3 L).length bg) ∧
    ((create_pptx_single_line L t bg).slides.map Slide.textBoxes =
        (create_pptx_single_line L t bg2).slides.map Slide.textBoxes) ∧
    ((create_pptx_three_lines L t bg).slides.map Slide.textBoxes =
        (create_pptx_three_lines L t bg2).slides.map Slide.textBoxes) := by
  refine ⟨?_, ?_, ?_, ?_⟩ <;>
    simp [create_pptx_single_line, create_pptx_three_lines, List.map_map, Function.comp_def,
      List.map_const']

/-- C7: only the first `ptitle` element is consulted; when one is present
the returned title is its trimmed text, and when no element of the markup
has that tag the returned title is the placeholder `"Dua"`. -/
theorem title_extraction (m : Markup) :
    ((∀ e ∈ m.elements, e.tag ≠ "ptitle") → (scrape_dua m).2 = "Dua") ∧
    (∀ e, find_first m "ptitle" = some e → (scrape_dua m).2 = pyStrip e.text) := by
  constructor
  · intro h
    have hn : find_first m "ptitle" = none := by
      apply List.find?_eq_none.mpr
      intro x hx
      simpa using h x hx
    simp [scrape_dua, hn]
  · intro e he
    simp [scrape_dua, he, get_text]

theorem title_extraction_witness :
    (scrape_dua ⟨[⟨"div", "Ara", "x"⟩]⟩).2 = "Dua" ∧
    (scrape_dua ⟨[⟨"ptitle", "", " My Dua "⟩]⟩).2 = pyStrip " My Dua " :=
  ⟨(title_extraction ⟨[⟨"div", "Ara", "x"⟩]⟩).1 (by decide),
   (title_extraction ⟨[⟨"ptitle", "", " My Dua "⟩]⟩).2 ⟨"ptitle", "", " My Dua "⟩ (by decide)⟩

/-- C8: the artifact names are the title with every space character
replaced by an underscore (all other characters and their positions kept),
suffixed `_single_line` or `_three_lines` by style, then the `.pptx`
extension. -/
theorem artifact_naming (title : String) :
    single_line_filename title = replace_spaces title ++ "_single_line" ++ ".pptx" ∧
    three_lines_filename title = replace_spaces title ++ "_three_lines" ++ ".pptx" ∧
    (replace_spaces title).data.length = title.data.length ∧
    (∀ (i : Nat) (c : Char), title.data[i]? = some c →
      (replace_spaces title).data[i]? = some (if c = ' ' then '_' else c)) := by
  refine ⟨?_, ?_, ?_, ?_⟩
  · rw [string_append_assoc]
    rfl
  · rw [string_append_assoc]
    rfl
  · simp [replace_spaces]
  · intro i c hc
    show (title.data.map (fun c => if c = ' ' then '_' else c))[i]? = _
    rw [List.getElem?_map, hc]
    rfl

theorem artifact_naming_witness :
    single_line_filename "Dua e Kumayl" = replace_spaces "Dua e Kumayl" ++ "_single_line" ++ ".pptx" ∧
    "Dua e Kumayl".data[3]? = some ' ' ∧
    (replace_spaces "Dua e Kumayl").data[3]? = some '_' :=
  ⟨(artifact_naming "Dua e Kumayl").1,
   by decide,
   by
    have h := (artifact_naming "Dua e Kumayl").2.2.2 3 ' ' (by decide)
    simpa using h⟩

/-- C9: when a `ptitle` element is present but its text is
whitespace-only, the returned title is the empty string, not the
placeholder `"Dua"`: the placeholder is substituted only when the element
is absent. -/
theorem blank_title_empty (m : Markup) (e : Element)
    (hfind : find_first m "ptitle" = some e) (hblank : pyStrip e.text = "") :
    (scrape_dua m).2 = "" ∧ (scrape_dua m).2 ≠ "Dua" := by
  have h : (scrape_dua m).2 = pyStrip e.text := by simp [scrape_dua, hfind, get_text]
  rw [h, hblank]
  exact ⟨rfl, by decide⟩

theorem blank_title_empty_witness :
    (scrape_dua ⟨[⟨"ptitle", "", "   "⟩]⟩).2 = "" ∧
    (scrape_dua ⟨[⟨"ptitle", "", "   "⟩]⟩).2 ≠ "Dua" :=
  blank_title_empty ⟨[⟨"ptitle", "", "   "⟩]⟩ ⟨"ptitle", "", "   "⟩ (by decide) (by decide)

/-- C10: the slide content of both builders is independent of the title
argument: for any two titles, the same lines and the same background,
the two produced presentations are equal (the title only reaches the
external artifact file name). -/
theorem title_independence {β : Type} (L : List DuaLine) (t1 t2 : String) (bg : Option β) :
    create_pptx_single_line L t1 bg = create_pptx_single_line L t2 bg ∧
    create_pptx_three_lines L t1 bg = create_pptx_three_lines L t2 bg :=
  ⟨rfl, rfl⟩

end DuaSlides
